import Mathlib

/-!
Verification of the PDF rule-checking backend (`src/Backend/index.js`).

The development shallow-embeds the backend's two units of logic:

* `checkRuleWithLLM` — the per-rule LLM evaluator (lines 25–113 of
  `index.js`).  The outbound network call is modelled by a parameter of
  type `LLMQuery`: a function from the rule and the truncated document
  text to the observed outcome of the call (an exception, or a reply
  carrying optional message content).
* `checkPdfHandler` — the `POST /check-pdf` request handler
  (lines 116–197).  The PDF-parsing library call is modelled by a
  `PdfOutcome` parameter; the handler also reports whether extraction
  was attempted and how many LLM evaluations were started, so that
  claims about "no extraction / no LLM call" are expressible.

JavaScript platform behaviour that the code relies on is modelled
explicitly:

* `Json` is the type of JavaScript values produced by `JSON.parse`,
  with numbers restricted to integers (the claims under study only
  involve integer numerals; machine floats are out of scope).
* `jsonParse` is an executable JSON reader over that value universe
  (strict JSON: no trailing garbage, last duplicate key wins at lookup,
  leading-zero numerals rejected; `\u` escapes and fractional or
  exponent numerals are outside the modelled universe).
* `jsTrim` / `jsSlice` model `String.prototype.trim` / `.slice(0, n)`
  for the ASCII whitespace actually exercised here; string length is
  measured in characters (identical to UTF-16 units on the ASCII
  inputs involved).
* Exceptions are modelled by `JsOutcome`: property access on `null`
  throws, calling `.trim()` on a truthy non-string throws, and the
  handler's outer `try`/`catch` maps any escaped exception to the 500
  "Internal server error" response, exactly as in the source.
-/

namespace PdfChecker

/-- JavaScript values as produced by `JSON.parse`, with numerals
restricted to integers. -/
inductive Json where
  | null : Json
  | bool (b : Bool) : Json
  | num (n : Int) : Json
  | str (s : String) : Json
  | arr (xs : List Json) : Json
  | obj (fields : List (String × Json)) : Json

/-- JavaScript truthiness of a `Json` value (`null`, `false`, `0` and
`""` are falsy; arrays and objects are always truthy). -/
def Json.truthy : Json → Bool
  | Json.null => false
  | Json.bool b => b
  | Json.num n => decide (n ≠ 0)
  | Json.str s => decide (s ≠ "")
  | Json.arr _ => true
  | Json.obj _ => true

/-- Opening-brace character, kept out of literals. -/
def lbraceChar : Char := Char.ofNat 123

/-- Closing-brace character, kept out of literals. -/
def rbraceChar : Char := Char.ofNat 125

/-- ASCII whitespace recognised by both JSON and `String.prototype.trim`
on the inputs modelled here. -/
def isWsChar (c : Char) : Bool :=
  c = ' ' ∨ c = '\t' ∨ c = '\n' ∨ c = '\r'

/-- Model of `String.prototype.trim`. -/
def jsTrim (s : String) : String :=
  String.mk (((s.toList.dropWhile isWsChar).reverse.dropWhile isWsChar).reverse)

/-- Model of `String.prototype.slice(0, n)`. -/
def jsSlice (s : String) (n : Nat) : String :=
  String.mk (s.toList.take n)

/-- Drop leading JSON whitespace. -/
def skipWs : List Char → List Char
  | [] => []
  | c :: cs => if isWsChar c then skipWs cs else c :: cs

/-- Consume an expected literal suffix (`ull`, `rue`, `alse`). -/
def stripLit : List Char → List Char → Option (List Char)
  | [], cs => some cs
  | _ :: _, [] => none
  | p :: ps, c :: cs => if c = p then stripLit ps cs else none

/-- Translate a JSON string escape character. -/
def escChar (c : Char) : Option Char :=
  if c = 'n' then some '\n'
  else if c = 't' then some '\t'
  else if c = 'r' then some '\r'
  else if c = 'b' then some (Char.ofNat 8)
  else if c = 'f' then some (Char.ofNat 12)
  else if c = '"' ∨ c = '\\' ∨ c = '/' then some c
  else none

/-- Read the body of a JSON string after the opening quote; returns the
content characters and the input after the closing quote. -/
def parseStrAux : List Char → Option (List Char × List Char)
  | [] => none
  | c :: cs =>
    if c = '"' then some ([], cs)
    else if c = '\\' then
      match cs with
      | [] => none
      | e :: cs2 =>
        match escChar e with
        | none => none
        | some ch =>
          match parseStrAux cs2 with
          | none => none
          | some (acc, rest) => some (ch :: acc, rest)
    else
      match parseStrAux cs with
      | none => none
      | some (acc, rest) => some (c :: acc, rest)

/-- Read a run of decimal digits. -/
def parseDigits (cs : List Char) : Option (Nat × List Char) :=
  let ds := cs.takeWhile (fun c => c.isDigit)
  if ds = [] then none
  else some (ds.foldl (fun n c => 10 * n + (c.toNat - 48)) 0, cs.drop ds.length)

/-- Read a JSON natural numeral (no leading zeros). -/
def parseNum : List Char → Option (Nat × List Char)
  | c :: c2 :: cs =>
    if c = '0' ∧ c2.isDigit then none else parseDigits (c :: c2 :: cs)
  | cs => parseDigits cs

mutual

/-- Fuel-indexed JSON value reader. -/
def parseVal : Nat → List Char → Option (Json × List Char)
  | 0, _ => none
  | fuel + 1, cs =>
    match skipWs cs with
    | [] => none
    | c :: rest =>
      if c = 'n' then
        match stripLit ['u', 'l', 'l'] rest with
        | some r => some (Json.null, r)
        | none => none
      else if c = 't' then
        match stripLit ['r', 'u', 'e'] rest with
        | some r => some (Json.bool true, r)
        | none => none
      else if c = 'f' then
        match stripLit ['a', 'l', 's', 'e'] rest with
        | some r => some (Json.bool false, r)
        | none => none
      else if c = '"' then
        match parseStrAux rest with
        | some (acc, r) => some (Json.str (String.mk acc), r)
        | none => none
      else if c = '-' then
        match parseNum rest with
        | some (n, r) => some (Json.num (-(n : Int)), r)
        | none => none
      else if c.isDigit then
        match parseNum (c :: rest) with
        | some (n, r) => some (Json.num ((n : Int)), r)
        | none => none
      else if c = '[' then
        match skipWs rest with
        | [] => none
        | c2 :: r2 =>
          if c2 = ']' then some (Json.arr [], r2)
          else
            match parseArrElems fuel rest with
            | some (vs, r) => some (Json.arr vs, r)
            | none => none
      else if c = lbraceChar then
        match skipWs rest with
        | [] => none
        | c2 :: r2 =>
          if c2 = rbraceChar then some (Json.obj [], r2)
          else
            match parseObjElems fuel rest with
            | some (ps, r) => some (Json.obj ps, r)
            | none => none
      else none

/-- Read `value (, value)* ]` inside an array. -/
def parseArrElems : Nat → List Char → Option (List Json × List Char)
  | 0, _ => none
  | fuel + 1, cs =>
    match parseVal fuel cs with
    | none => none
    | some (v, r1) =>
      match skipWs r1 with
      | [] => none
      | c :: r2 =>
        if c = ',' then
          match parseArrElems fuel r2 with
          | none => none
          | some (vs, r3) => some (v :: vs, r3)
        else if c = ']' then some ([v], r2)
        else none

/-- Read `"key" : value (, "key" : value)* endbrace` inside an object. -/
def parseObjElems : Nat → List Char → Option (List (String × Json) × List Char)
  | 0, _ => none
  | fuel + 1, cs =>
    match skipWs cs with
    | [] => none
    | c :: r1 =>
      if c = '"' then
        match parseStrAux r1 with
        | none => none
        | some (kacc, r2) =>
          match skipWs r2 with
          | [] => none
          | c2 :: r3 =>
            if c2 = ':' then
              match parseVal fuel r3 with
              | none => none
              | some (v, r4) =>
                match skipWs r4 with
                | [] => none
                | c3 :: r5 =>
                  if c3 = ',' then
                    match parseObjElems fuel r5 with
                    | none => none
                    | some (ps, r6) => some ((String.mk kacc, v) :: ps, r6)
                  else if c3 = rbraceChar then some ([(String.mk kacc, v)], r5)
                  else none
            else none
      else none

end

/-- Model of `JSON.parse`: `none` is a thrown `SyntaxError`. -/
def jsonParse (s : String) : Option Json :=
  match parseVal (s.length + 2) s.toList with
  | none => none
  | some (v, rest) => if skipWs rest = [] then some v else none

/-- Association-list lookup with JavaScript's duplicate-key behaviour:
the last occurrence of a key wins. -/
def lookupField : List (String × Json) → String → Option Json
  | [], _ => none
  | (k, v) :: rest, key =>
    match lookupField rest key with
    | some r => some r
    | none => if k = key then some v else none

/-- Property access `j.key` for the non-`null` values reachable here:
objects look the key up, primitives and arrays yield `undefined`
(`none`).  Access on `Json.null` throws and is handled separately by
the caller. -/
def getProp : Json → String → Option Json
  | Json.obj fs, key => lookupField fs key
  | _, _ => none

/-- JavaScript `x || dflt` applied to a possibly-`undefined` property
value. -/
def jsOr (x : Option Json) (dflt : Json) : Json :=
  match x with
  | some v => if v.truthy then v else dflt
  | none => dflt

/-- Outcome of a JavaScript expression that may throw. -/
inductive JsOutcome (α : Type) where
  | ok (a : α) : JsOutcome α
  | thrown : JsOutcome α

/-- Observed outcome of the `openai.chat.completions.create` call:
either the awaited promise rejects, or a reply arrives whose
`choices[0]?.message?.content` chain yields the given optional string. -/
inductive LLMOutcome where
  | apiError : LLMOutcome
  | reply (content : Option String) : LLMOutcome

/-- The LLM service as seen by one evaluator call: a function from the
rule and the truncated document text to the observed outcome. -/
def LLMQuery : Type := String → String → LLMOutcome

/-- A rule verdict as assembled by `checkRuleWithLLM`.  The `confidence`
field is always a number in the source (a ternary on `typeof`), hence
`Int` here; the other three fields hold whatever JavaScript value the
normalization produced. -/
structure Verdict where
  rule : String
  status : Json
  evidence : Json
  reasoning : Json
  confidence : Int

/-- Character budget for the document text (line 27). -/
def MAX_CHARS : Nat := 50000

/-- Truncation of the document text (lines 28–31). -/
def truncateText (documentText : String) : String :=
  if documentText.length > MAX_CHARS then jsSlice documentText MAX_CHARS
  else documentText

/-- The string `JSON.parse` receives (line 76): missing or empty
message content is replaced by an empty JSON object literal. -/
def emptyObjStr : String := "\x7b\x7d"

/-- Evaluation of `response.choices[0]?.message?.content || "massive"`
shape at line 76: `none` models an absent link in the optional chain. -/
def messageOf : Option String → String
  | some s => if s = "" then emptyObjStr else s
  | none => emptyObjStr

/-- The degraded verdict returned when the LLM reply is not valid JSON
(lines 84–90). -/
def jsonErrorVerdict (rule : String) : Verdict :=
  { rule := rule
    status := Json.str "fail"
    evidence := Json.str "LLM Error"
    reasoning := Json.str "LLM output was not valid JSON."
    confidence := 0 }

/-- The degraded verdict returned by the outer `catch` when the API
call (or anything else in the `try` block) throws (lines 105–111). -/
def apiErrorVerdict (rule : String) : Verdict :=
  { rule := rule
    status := Json.str "fail"
    evidence := Json.str "API Error"
    reasoning := Json.str "Failed to communicate with the LLM API. Check OPENAI_API_KEY and billing status."
    confidence := 0 }

/-- Normalization of a successfully parsed non-`null` reply
(lines 94–101): `parsed.x || default` for the three text fields and a
`typeof`-guarded pass-through for `confidence`. -/
def normalizeVerdict (rule : String) (parsed : Json) : Verdict :=
  { rule := rule
    status := jsOr (getProp parsed "status") (Json.str "fail")
    evidence := jsOr (getProp parsed "evidence") (Json.str "No evidence found.")
    reasoning := jsOr (getProp parsed "reasoning") (Json.str "Failed to process LLM response.")
    confidence :=
      match getProp parsed "confidence" with
      | some (Json.num n) => n
      | _ => 0 }

/-- Body of the `try` block of `checkRuleWithLLM` (lines 66–101).  A
rejected API call throws; a reply whose text is not valid JSON is
handled by the inner `catch` (degraded verdict, line 84); a reply
parsing to `null` throws at `parsed.status` (line 96); any other parse
is normalized. -/
def checkRuleTryBlock (llm : LLMQuery) (rule truncatedText : String) : JsOutcome Verdict :=
  match llm rule truncatedText with
  | LLMOutcome.apiError => JsOutcome.thrown
  | LLMOutcome.reply content =>
    match jsonParse (messageOf content) with
    | none => JsOutcome.ok (jsonErrorVerdict rule)
    | some Json.null => JsOutcome.thrown
    | some parsed => JsOutcome.ok (normalizeVerdict rule parsed)

/-- The full rule evaluator (lines 25–113): truncate, run the `try`
block, and convert any escaped exception into the API-error verdict in
the outer `catch`. -/
def checkRuleWithLLM (llm : LLMQuery) (rule documentText : String) : Verdict :=
  match checkRuleTryBlock llm rule (truncateText documentText) with
  | JsOutcome.ok v => v
  | JsOutcome.thrown => apiErrorVerdict rule

/-- The uploaded file as the handler observes it (`req.file`). -/
structure UploadedFile where
  mimetype : String

/-- Observed outcome of the pdf-parse library interaction: no callable
entry point found (lines 154–157), the parse call throwing
(lines 168–171), or a parse result whose `text` property is the given
optional string. -/
inductive PdfOutcome where
  | noParser : PdfOutcome
  | parseError : PdfOutcome
  | parsed (text : Option String) : PdfOutcome

/-- An HTTP response sent by the handler: a 200 with a results list, or
a status code with an error message. -/
inductive Response where
  | results (vs : List Verdict) : Response
  | error (status : Nat) (msg : String) : Response

/-- The handler's observable behaviour: the response, whether the PDF
parse was attempted, and how many LLM evaluations were started. -/
structure HandlerResult where
  response : Response
  extractionPerformed : Bool
  llmCalls : Nat

/-- Evaluation of `req.body.rules || "massive"` shape at line 119: an
absent (or empty, hence falsy) field defaults to the literal `"[]"`. -/
def rawRules : Option String → String
  | some s => if s = "" then "[]" else s
  | none => "[]"

/-- The filter `rules.filter((r) => r && r.trim())` (line 186).  A
falsy element is dropped without calling `.trim()`; a truthy non-string
throws (`r.trim` is not a function); a string survives exactly when its
trim is non-empty. -/
def filterRules : List Json → JsOutcome (List String)
  | [] => JsOutcome.ok []
  | Json.str s :: rest =>
    match filterRules rest with
    | JsOutcome.thrown => JsOutcome.thrown
    | JsOutcome.ok tail =>
      if jsTrim s = "" then JsOutcome.ok tail else JsOutcome.ok (s :: tail)
  | j :: rest =>
    if j.truthy then JsOutcome.thrown else filterRules rest

/-- The `.map(async (rule) => checkRuleWithLLM(rule.trim(), documentText))`
step joined by `Promise.all` (lines 186–190): one evaluator call per
surviving rule, in submission order; the `Nat` argument indexes the
concurrent calls so each may observe its own LLM outcome. -/
def runChecks (llm : Nat → LLMQuery) (documentText : String) : Nat → List String → List Verdict
  | _, [] => []
  | i, r :: rest =>
    checkRuleWithLLM (llm i) (jsTrim r) documentText :: runChecks llm documentText (i + 1) rest

/-- The `POST /check-pdf` handler (lines 116–197): validation in source
order, then extraction, then the length gate, then the rule checks;
the outer `catch` (lines 193–196) maps any escaped exception to the
500 "Internal server error" response.  `file` is `req.file` and
`rulesField` is `req.body.rules` (absent field modelled as `none`). -/
def checkPdfHandler (file : Option UploadedFile) (rulesField : Option String)
    (pdf : PdfOutcome) (llm : Nat → LLMQuery) : HandlerResult :=
  match jsonParse (rawRules rulesField) with
  | none =>
    { response := Response.error 400 "Rules data is malformed."
      extractionPerformed := false, llmCalls := 0 }
  | some rules =>
    match file with
    | none =>
      { response := Response.error 400 "PDF file is required"
        extractionPerformed := false, llmCalls := 0 }
    | some f =>
      if f.mimetype ≠ "application/pdf" then
        { response := Response.error 400 "Only PDF files are supported."
          extractionPerformed := false, llmCalls := 0 }
      else
        match rules with
        | Json.arr rs =>
          if rs.length = 0 then
            { response := Response.error 400 "At least one rule is required"
              extractionPerformed := false, llmCalls := 0 }
          else
            match pdf with
            | PdfOutcome.noParser =>
              { response := Response.error 500 "Server misconfiguration: PDF parser not found."
                extractionPerformed := false, llmCalls := 0 }
            | PdfOutcome.parseError =>
              { response := Response.error 500 "Failed to read PDF content."
                extractionPerformed := true, llmCalls := 0 }
            | PdfOutcome.parsed textOpt =>
              let documentText := textOpt.getD ""
              if documentText.length < 50 then
                { response := Response.error 400 "Extracted PDF text is too short or empty. Please check the PDF content."
                  extractionPerformed := true, llmCalls := 0 }
              else
                match filterRules rs with
                | JsOutcome.thrown =>
                  { response := Response.error 500 "Internal server error"
                    extractionPerformed := true, llmCalls := 0 }
                | JsOutcome.ok kept =>
                  { response := Response.results (runChecks llm documentText 0 kept)
                    extractionPerformed := true, llmCalls := kept.length }
        | _ =>
          { response := Response.error 400 "At least one rule is required"
            extractionPerformed := false, llmCalls := 0 }

/-- Specification-side view of the surviving rules: the string entries
whose trim is non-empty, in order. -/
def keptRules : List Json → List String
  | [] => []
  | Json.str s :: rest => if jsTrim s = "" then keptRules rest else s :: keptRules rest
  | _ :: rest => keptRules rest

/-- The reply's `status` property is absent, falsy, or one of the two
declared literals. -/
def statusReplyOk (j : Json) : Bool :=
  match getProp j "status" with
  | none => true
  | some (Json.str s) => decide (s = "pass" ∨ s = "fail" ∨ s = "")
  | some v => !v.truthy

/-- The reply's property at `key` is absent, falsy, or a string. -/
def strFieldOk (j : Json) (key : String) : Bool :=
  match getProp j key with
  | none => true
  | some (Json.str _) => true
  | some v => !v.truthy

/-- The reply's `confidence` property, when it is a number, lies in the
declared 0–100 range. -/
def confidenceReplyOk (j : Json) : Bool :=
  match getProp j "confidence" with
  | some (Json.num n) => decide (0 ≤ n ∧ n ≤ 100)
  | _ => true

/-- A parsed reply whose present fields match the declared schema. -/
def wellTypedReply (j : Json) : Bool :=
  statusReplyOk j && strFieldOk j "evidence" && strFieldOk j "reasoning"
    && confidenceReplyOk j

/-- A verdict matching the spec's Rule Verdict schema: a pass/fail
status, string evidence and reasoning, and a confidence in 0–100. -/
def schemaOK (v : Verdict) : Prop :=
  (v.status = Json.str "pass" ∨ v.status = Json.str "fail")
    ∧ (∃ s, v.evidence = Json.str s)
    ∧ (∃ s, v.reasoning = Json.str s)
    ∧ 0 ≤ v.confidence ∧ v.confidence ≤ 100

theorem checkRuleTryBlock_ok_rule (llm : LLMQuery) (rule t : String) (v : Verdict)
    (h : checkRuleTryBlock llm rule t = JsOutcome.ok v) : v.rule = rule := by
  unfold checkRuleTryBlock at h
  split at h
  · exact JsOutcome.noConfusion h
  · split at h
    · simp only [JsOutcome.ok.injEq] at h
      subst h
      rfl
    · exact JsOutcome.noConfusion h
    · simp only [JsOutcome.ok.injEq] at h
      subst h
      rfl

theorem checkRule_rule_eq (llm : LLMQuery) (rule documentText : String) :
    (checkRuleWithLLM llm rule documentText).rule = rule := by
  unfold checkRuleWithLLM
  cases h : checkRuleTryBlock llm rule (truncateText documentText) with
  | ok v => exact checkRuleTryBlock_ok_rule llm rule (truncateText documentText) v h
  | thrown => rfl

theorem filterRules_eq_keptRules (rs : List Json)
    (h : ∀ j ∈ rs, ∃ s, j = Json.str s) :
    filterRules rs = JsOutcome.ok (keptRules rs) := by
  induction rs with
  | nil => rfl
  | cons j rest ih =>
    obtain ⟨s, rfl⟩ := h _ (List.mem_cons_self j rest)
    have ht := ih (fun x hx => h x (List.mem_cons_of_mem _ hx))
    by_cases hs : jsTrim s = "" <;>
      simp [filterRules, keptRules, ht, hs]

theorem keptRules_nil_of_ws (rs : List Json)
    (h : ∀ j ∈ rs, ∃ s, j = Json.str s ∧ jsTrim s = "") :
    keptRules rs = [] := by
  induction rs with
  | nil => rfl
  | cons j rest ih =>
    obtain ⟨s, rfl, hs⟩ := h _ (List.mem_cons_self j rest)
    have ht := ih (fun x hx => h x (List.mem_cons_of_mem _ hx))
    simp [keptRules, hs, ht]

theorem runChecks_length (llm : Nat → LLMQuery) (documentText : String)
    (i : Nat) (rs : List String) :
    (runChecks llm documentText i rs).length = rs.length := by
  induction rs generalizing i with
  | nil => rfl
  | cons r rest ih => simp [runChecks, ih]

theorem runChecks_map_rule (llm : Nat → LLMQuery) (documentText : String)
    (i : Nat) (rs : List String) :
    (runChecks llm documentText i rs).map Verdict.rule = rs.map jsTrim := by
  induction rs generalizing i with
  | nil => rfl
  | cons r rest ih =>
    simp [runChecks, ih, checkRule_rule_eq]

theorem normalize_schemaOK (rule : String) (j : Json)
    (h : wellTypedReply j = true) : schemaOK (normalizeVerdict rule j) := by
  unfold wellTypedReply at h
  simp only [Bool.and_eq_true] at h
  obtain ⟨⟨⟨hs, he⟩, hr⟩, hc⟩ := h
  refine ⟨?_, ?_, ?_, ?_⟩
  · unfold statusReplyOk at hs
    unfold normalizeVerdict jsOr
    cases hp : getProp j "status" with
    | none => simp
    | some v =>
      rw [hp] at hs
      cases v with
      | str s =>
        simp only [decide_eq_true_eq] at hs
        rcases hs with h1 | h1 | h1 <;> subst h1 <;> simp [Json.truthy]
      | null => simp [Json.truthy]
      | bool b => cases b <;> simp_all [Json.truthy]
      | num n => simp_all [Json.truthy]
      | arr xs => simp_all [Json.truthy]
      | obj fs => simp_all [Json.truthy]
  · unfold strFieldOk at he
    unfold normalizeVerdict jsOr
    cases hp : getProp j "evidence" with
    | none => exact ⟨_, rfl⟩
    | some v =>
      rw [hp] at he
      cases v with
      | str s =>
        by_cases h1 : s = "" <;> simp [Json.truthy, h1]
      | null => simp [Json.truthy]
      | bool b => cases b <;> simp_all [Json.truthy]
      | num n => simp_all [Json.truthy]
      | arr xs => simp_all [Json.truthy]
      | obj fs => simp_all [Json.truthy]
  · unfold strFieldOk at hr
    unfold normalizeVerdict jsOr
    cases hp : getProp j "reasoning" with
    | none => exact ⟨_, rfl⟩
    | some v =>
      rw [hp] at hr
      cases v with
      | str s =>
        by_cases h1 : s = "" <;> simp [Json.truthy, h1]
      | null => simp [Json.truthy]
      | bool b => cases b <;> simp_all [Json.truthy]
      | num n => simp_all [Json.truthy]
      | arr xs => simp_all [Json.truthy]
      | obj fs => simp_all [Json.truthy]
  · unfold confidenceReplyOk at hc
    unfold normalizeVerdict
    cases hp : getProp j "confidence" with
    | none => simp
    | some v =>
      rw [hp] at hc
      cases v with
      | num n => simp_all
      | null => simp
      | bool b => simp
      | str s => simp
      | arr xs => simp
      | obj fs => simp

theorem checkRuleWithLLM_apiError (llm : LLMQuery) (rule documentText : String)
    (h : llm rule (truncateText documentText) = LLMOutcome.apiError) :
    checkRuleWithLLM llm rule documentText = apiErrorVerdict rule := by
  simp only [checkRuleWithLLM, checkRuleTryBlock, h]

theorem checkRuleWithLLM_reply (llm : LLMQuery) (rule documentText : String)
    (content : Option String)
    (h : llm rule (truncateText documentText) = LLMOutcome.reply content) :
    checkRuleWithLLM llm rule documentText =
      match jsonParse (messageOf content) with
      | none => jsonErrorVerdict rule
      | some Json.null => apiErrorVerdict rule
      | some parsed => normalizeVerdict rule parsed := by
  simp only [checkRuleWithLLM, checkRuleTryBlock, h]
  cases jsonParse (messageOf content) with
  | none => rfl
  | some j => cases j <;> rfl

/-- C4: the rule evaluator never throws for any string rule and string
document text: an exception escaping the `try` block (rejected API
call, or the property access on a `null` parse) is converted by the
outer `catch` into the degraded API-error verdict, and the evaluator
always returns one of the three verdict shapes — API-error verdict,
JSON-error verdict, or a normalized verdict. -/
theorem c4_evaluator_never_throws (llm : LLMQuery) (rule documentText : String) :
    (checkRuleTryBlock llm rule (truncateText documentText) = JsOutcome.thrown →
      checkRuleWithLLM llm rule documentText = apiErrorVerdict rule)
    ∧ (checkRuleWithLLM llm rule documentText = apiErrorVerdict rule
       ∨ checkRuleWithLLM llm rule documentText = jsonErrorVerdict rule
       ∨ ∃ parsed, checkRuleWithLLM llm rule documentText = normalizeVerdict rule parsed) := by
  constructor
  · intro h
    unfold checkRuleWithLLM
    rw [h]
  · cases h : llm rule (truncateText documentText) with
    | apiError => exact Or.inl (checkRuleWithLLM_apiError llm rule documentText h)
    | reply content =>
      rw [checkRuleWithLLM_reply llm rule documentText content h]
      cases hp : jsonParse (messageOf content) with
      | none => exact Or.inr (Or.inl rfl)
      | some j =>
        cases j with
        | null => exact Or.inl rfl
        | bool b => exact Or.inr (Or.inr ⟨Json.bool b, rfl⟩)
        | num n => exact Or.inr (Or.inr ⟨Json.num n, rfl⟩)
        | str s => exact Or.inr (Or.inr ⟨Json.str s, rfl⟩)
        | arr xs => exact Or.inr (Or.inr ⟨Json.arr xs, rfl⟩)
        | obj fs => exact Or.inr (Or.inr ⟨Json.obj fs, rfl⟩)

/-- C4 witness: a rejected API call yields the API-error verdict. -/
theorem c4_witness :
    checkRuleWithLLM (fun _ _ => LLMOutcome.apiError) "r" "d" = apiErrorVerdict "r" :=
  (c4_evaluator_never_throws (fun _ _ => LLMOutcome.apiError) "r" "d").1 rfl

/-- C5: an unparseable LLM reply yields the malformed-output verdict
and a failed API call yields the API-failure verdict; both carry
status "fail" and confidence 0, and their evidence and reasoning
strings are distinct from each other. -/
theorem c5_failure_classes_distinct (llm : LLMQuery) (rule documentText : String) :
    (∀ content, llm rule (truncateText documentText) = LLMOutcome.reply content →
      jsonParse (messageOf content) = none →
      checkRuleWithLLM llm rule documentText = jsonErrorVerdict rule)
    ∧ (llm rule (truncateText documentText) = LLMOutcome.apiError →
      checkRuleWithLLM llm rule documentText = apiErrorVerdict rule)
    ∧ (jsonErrorVerdict rule).status = Json.str "fail"
    ∧ (jsonErrorVerdict rule).confidence = 0
    ∧ (apiErrorVerdict rule).status = Json.str "fail"
    ∧ (apiErrorVerdict rule).confidence = 0
    ∧ (jsonErrorVerdict rule).evidence ≠ (apiErrorVerdict rule).evidence
    ∧ (jsonErrorVerdict rule).reasoning ≠ (apiErrorVerdict rule).reasoning := by
  refine ⟨?_, ?_, rfl, rfl, rfl, rfl, ?_, ?_⟩
  · intro content h hp
    rw [checkRuleWithLLM_reply llm rule documentText content h, hp]
  · intro h
    exact checkRuleWithLLM_apiError llm rule documentText h
  · intro h
    have h' : Json.str "LLM Error" = Json.str "API Error" := h
    injection h' with h2
    exact absurd h2 (by decide)
  · intro h
    have h' : Json.str "LLM output was not valid JSON."
        = Json.str "Failed to communicate with the LLM API. Check OPENAI_API_KEY and billing status." := h
    injection h' with h2
    exact absurd h2 (by decide)

/-- C5 witness: a reply that is not JSON produces the malformed-output
verdict. -/
theorem c5_witness :
    checkRuleWithLLM (fun _ _ => LLMOutcome.reply (some "not json")) "r" "d"
      = jsonErrorVerdict "r" :=
  (c5_failure_classes_distinct (fun _ _ => LLMOutcome.reply (some "not json")) "r" "d").1
    (some "not json") rfl rfl

/-- C9: a missing or empty LLM message content is replaced by an empty
JSON object literal, which parses successfully, and the verdict is the
all-defaults normalized one — not the malformed-output error verdict. -/
theorem c9_empty_content_defaults (llm : LLMQuery) (rule documentText : String)
    (h : llm rule (truncateText documentText) = LLMOutcome.reply none
       ∨ llm rule (truncateText documentText) = LLMOutcome.reply (some "")) :
    jsonParse emptyObjStr = some (Json.obj [])
    ∧ checkRuleWithLLM llm rule documentText =
        { rule := rule, status := Json.str "fail", evidence := Json.str "No evidence found.",
          reasoning := Json.str "Failed to process LLM response.", confidence := 0 }
    ∧ checkRuleWithLLM llm rule documentText ≠ jsonErrorVerdict rule := by
  have h2 : checkRuleWithLLM llm rule documentText =
      { rule := rule, status := Json.str "fail", evidence := Json.str "No evidence found.",
        reasoning := Json.str "Failed to process LLM response.", confidence := 0 } := by
    cases h with
    | inl h =>
      rw [checkRuleWithLLM_reply llm rule documentText none h]
      rfl
    | inr h =>
      rw [checkRuleWithLLM_reply llm rule documentText (some "") h]
      rfl
  refine ⟨rfl, h2, ?_⟩
  rw [h2]
  intro he
  have h3 : Json.str "No evidence found." = Json.str "LLM Error" :=
    congrArg Verdict.evidence he
  injection h3 with h4
  exact absurd h4 (by decide)

/-- C9 witness: a reply with absent message content yields the
all-defaults verdict. -/
theorem c9_witness :
    checkRuleWithLLM (fun _ _ => LLMOutcome.reply none) "r" "d" =
      { rule := "r", status := Json.str "fail", evidence := Json.str "No evidence found.",
        reasoning := Json.str "Failed to process LLM response.", confidence := 0 } :=
  (c9_empty_content_defaults (fun _ _ => LLMOutcome.reply none) "r" "d" (Or.inl rfl)).2.1

/-- A reply whose `status` is a truthy non-schema string and whose
`confidence` is a number above 100. -/
def c3BadReply : String := "\x7b\"status\":\"maybe\",\"confidence\":150\x7d"

/-- C3 as stated is false: a parsed LLM reply with `status` set to the
string "maybe" and `confidence` set to 150 yields a verdict whose
status is neither "pass" nor "fail" and whose confidence exceeds 100 —
the normalization passes truthy reply values through unchecked. -/
theorem c3_counterexample :
    (checkRuleWithLLM (fun _ _ => LLMOutcome.reply (some c3BadReply)) "r" "d").status
      = Json.str "maybe"
    ∧ (checkRuleWithLLM (fun _ _ => LLMOutcome.reply (some c3BadReply)) "r" "d").status
        ≠ Json.str "pass"
    ∧ (checkRuleWithLLM (fun _ _ => LLMOutcome.reply (some c3BadReply)) "r" "d").status
        ≠ Json.str "fail"
    ∧ 100 < (checkRuleWithLLM (fun _ _ => LLMOutcome.reply (some c3BadReply)) "r" "d").confidence := by
  have hs : (checkRuleWithLLM (fun _ _ => LLMOutcome.reply (some c3BadReply)) "r" "d").status
      = Json.str "maybe" := rfl
  have hc : (checkRuleWithLLM (fun _ _ => LLMOutcome.reply (some c3BadReply)) "r" "d").confidence
      = 150 := rfl
  refine ⟨hs, ?_, ?_, ?_⟩
  · rw [hs]
    intro h
    injection h with h2
    exact absurd h2 (by decide)
  · rw [hs]
    intro h
    injection h with h2
    exact absurd h2 (by decide)
  · rw [hc]
    decide

/-- C3 amended: whenever every parsed reply the evaluator can observe
has its present fields matching the declared schema — status absent,
falsy, or "pass"/"fail"; evidence and reasoning absent, falsy, or
strings; confidence absent, non-numeric, or an integer in 0–100 — the
verdict satisfies the Rule Verdict schema: a pass/fail status, string
evidence and reasoning, and an integer confidence between 0 and 100
(reply values outside the schema are passed through unchecked, per the
counterexample). -/
theorem c3_amended_schema (llm : LLMQuery) (rule documentText : String)
    (hwf : ∀ content j, llm rule (truncateText documentText) = LLMOutcome.reply content →
      jsonParse (messageOf content) = some j → wellTypedReply j = true) :
    schemaOK (checkRuleWithLLM llm rule documentText) := by
  have hapi : schemaOK (apiErrorVerdict rule) :=
    ⟨Or.inr rfl, ⟨_, rfl⟩, ⟨_, rfl⟩, by show (0 : Int) ≤ 0; decide,
      by show (0 : Int) ≤ 100; decide⟩
  have hjson : schemaOK (jsonErrorVerdict rule) :=
    ⟨Or.inr rfl, ⟨_, rfl⟩, ⟨_, rfl⟩, by show (0 : Int) ≤ 0; decide,
      by show (0 : Int) ≤ 100; decide⟩
  cases h : llm rule (truncateText documentText) with
  | apiError =>
    rw [checkRuleWithLLM_apiError llm rule documentText h]
    exact hapi
  | reply content =>
    rw [checkRuleWithLLM_reply llm rule documentText content h]
    cases hp : jsonParse (messageOf content) with
    | none => exact hjson
    | some j =>
      have hj := hwf content j h hp
      cases j with
      | null => exact hapi
      | bool b => exact normalize_schemaOK rule (Json.bool b) hj
      | num n => exact normalize_schemaOK rule (Json.num n) hj
      | str s => exact normalize_schemaOK rule (Json.str s) hj
      | arr xs => exact normalize_schemaOK rule (Json.arr xs) hj
      | obj fs => exact normalize_schemaOK rule (Json.obj fs) hj

/-- A fully schema-conformant reply. -/
def c3GoodReply : String :=
  "\x7b\"status\":\"pass\",\"evidence\":\"E\",\"reasoning\":\"R\",\"confidence\":95\x7d"

/-- The parse of `c3GoodReply`. -/
def c3GoodJson : Json :=
  Json.obj [("status", Json.str "pass"), ("evidence", Json.str "E"),
    ("reasoning", Json.str "R"), ("confidence", Json.num 95)]

/-- C3 witness: a well-typed reply produces a schema-conformant
verdict. -/
theorem c3_witness :
    schemaOK (checkRuleWithLLM (fun _ _ => LLMOutcome.reply (some c3GoodReply)) "r" "d") :=
  c3_amended_schema (fun _ _ => LLMOutcome.reply (some c3GoodReply)) "r" "d" (by
    intro content j h1 h2
    injection h1 with h1
    subst h1
    have hparse : jsonParse (messageOf (some c3GoodReply)) = some c3GoodJson := rfl
    rw [hparse] at h2
    injection h2 with h2
    subst h2
    rfl)

/-- A parsed reply carrying an empty-string `evidence` field. -/
def c6EmptyEvidenceReply : String := "\x7b\"evidence\":\"\"\x7d"

/-- C6 as stated is false: in the reply `c6EmptyEvidenceReply` the
`evidence` field is present and of the right type (a string), yet the
verdict replaces it with the "no evidence found" placeholder instead
of passing it through unchanged, because the normalization tests
truthiness rather than presence. -/
theorem c6_counterexample :
    jsonParse (messageOf (some c6EmptyEvidenceReply))
      = some (Json.obj [("evidence", Json.str "")])
    ∧ getProp (Json.obj [("evidence", Json.str "")]) "evidence" = some (Json.str "")
    ∧ (checkRuleWithLLM (fun _ _ => LLMOutcome.reply (some c6EmptyEvidenceReply)) "r" "d").evidence
        = Json.str "No evidence found."
    ∧ Json.str "No evidence found." ≠ Json.str "" := by
  refine ⟨rfl, rfl, rfl, ?_⟩
  intro h
  injection h with h2
  exact absurd h2 (by decide)

/-- C6 amended: when the LLM reply parses to an object, the evaluator
returns its normalization, and the normalization behaves exactly as:
missing `status` becomes "fail", missing `evidence` becomes the
"no evidence found" placeholder, missing `reasoning` becomes the
"failed to process" placeholder, missing or non-numeric `confidence`
becomes 0; present fields of the right type are passed through
unchanged only when truthy — a "pass"/"fail" status, non-empty
evidence and reasoning strings, and any numeric confidence — while a
present-but-empty string field is replaced by its default exactly like
a missing one. -/
theorem c6_amended_normalization (llm : LLMQuery) (rule documentText : String)
    (content : Option String) (fs : List (String × Json))
    (hreply : llm rule (truncateText documentText) = LLMOutcome.reply content)
    (hparse : jsonParse (messageOf content) = some (Json.obj fs)) :
    checkRuleWithLLM llm rule documentText = normalizeVerdict rule (Json.obj fs)
    ∧ (getProp (Json.obj fs) "status" = none →
        (normalizeVerdict rule (Json.obj fs)).status = Json.str "fail")
    ∧ (∀ s, getProp (Json.obj fs) "status" = some (Json.str s) → (s = "pass" ∨ s = "fail") →
        (normalizeVerdict rule (Json.obj fs)).status = Json.str s)
    ∧ (getProp (Json.obj fs) "evidence" = none →
        (normalizeVerdict rule (Json.obj fs)).evidence = Json.str "No evidence found.")
    ∧ (∀ s, getProp (Json.obj fs) "evidence" = some (Json.str s) → s ≠ "" →
        (normalizeVerdict rule (Json.obj fs)).evidence = Json.str s)
    ∧ (getProp (Json.obj fs) "evidence" = some (Json.str "") →
        (normalizeVerdict rule (Json.obj fs)).evidence = Json.str "No evidence found.")
    ∧ (getProp (Json.obj fs) "reasoning" = none →
        (normalizeVerdict rule (Json.obj fs)).reasoning
          = Json.str "Failed to process LLM response.")
    ∧ (∀ s, getProp (Json.obj fs) "reasoning" = some (Json.str s) → s ≠ "" →
        (normalizeVerdict rule (Json.obj fs)).reasoning = Json.str s)
    ∧ (getProp (Json.obj fs) "reasoning" = some (Json.str "") →
        (normalizeVerdict rule (Json.obj fs)).reasoning
          = Json.str "Failed to process LLM response.")
    ∧ (getProp (Json.obj fs) "confidence" = none →
        (normalizeVerdict rule (Json.obj fs)).confidence = 0)
    ∧ (∀ j, getProp (Json.obj fs) "confidence" = some j → (∀ n, j ≠ Json.num n) →
        (normalizeVerdict rule (Json.obj fs)).confidence = 0)
    ∧ (∀ n, getProp (Json.obj fs) "confidence" = some (Json.num n) →
        (normalizeVerdict rule (Json.obj fs)).confidence = n) := by
  refine ⟨?_, ?_, ?_, ?_, ?_, ?_, ?_, ?_, ?_, ?_, ?_, ?_⟩
  · rw [checkRuleWithLLM_reply llm rule documentText content hreply, hparse]
  · intro h
    simp [normalizeVerdict, jsOr, h]
  · intro s h hs
    have hne : s ≠ "" := by rcases hs with h1 | h1 <;> subst h1 <;> decide
    simp [normalizeVerdict, jsOr, h, Json.truthy, hne]
  · intro h
    simp [normalizeVerdict, jsOr, h]
  · intro s h hne
    simp [normalizeVerdict, jsOr, h, Json.truthy, hne]
  · intro h
    simp [normalizeVerdict, jsOr, h, Json.truthy]
  · intro h
    simp [normalizeVerdict, jsOr, h]
  · intro s h hne
    simp [normalizeVerdict, jsOr, h, Json.truthy, hne]
  · intro h
    simp [normalizeVerdict, jsOr, h, Json.truthy]
  · intro h
    simp [normalizeVerdict, h]
  · intro j h hj
    cases j with
    | num n => exact absurd rfl (hj n)
    | null => simp [normalizeVerdict, h]
    | bool b => simp [normalizeVerdict, h]
    | str s => simp [normalizeVerdict, h]
    | arr xs => simp [normalizeVerdict, h]
    | obj gs => simp [normalizeVerdict, h]
  · intro n h
    simp [normalizeVerdict, h]

/-- C6 witness: the normalization applied to a concrete object reply
with all four fields present and truthy. -/
theorem c6_witness :
    checkRuleWithLLM (fun _ _ => LLMOutcome.reply (some c3GoodReply)) "r" "d"
      = normalizeVerdict "r" c3GoodJson :=
  (c6_amended_normalization (fun _ _ => LLMOutcome.reply (some c3GoodReply)) "r" "d"
    (some c3GoodReply)
    [("status", Json.str "pass"), ("evidence", Json.str "E"),
      ("reasoning", Json.str "R"), ("confidence", Json.num 95)]
    rfl rfl).1

theorem checkPdfHandler_malformed (file : Option UploadedFile) (rulesField : Option String)
    (pdf : PdfOutcome) (llm : Nat → LLMQuery)
    (h : jsonParse (rawRules rulesField) = none) :
    checkPdfHandler file rulesField pdf llm
      = ⟨Response.error 400 "Rules data is malformed.", false, 0⟩ := by
  simp only [checkPdfHandler, h]

theorem checkPdfHandler_noFile (rulesField : Option String) (pdf : PdfOutcome)
    (llm : Nat → LLMQuery) (rules : Json)
    (h : jsonParse (rawRules rulesField) = some rules) :
    checkPdfHandler none rulesField pdf llm
      = ⟨Response.error 400 "PDF file is required", false, 0⟩ := by
  simp only [checkPdfHandler, h]

theorem checkPdfHandler_badType (f : UploadedFile) (rulesField : Option String)
    (pdf : PdfOutcome) (llm : Nat → LLMQuery) (rules : Json)
    (h : jsonParse (rawRules rulesField) = some rules)
    (hm : f.mimetype ≠ "application/pdf") :
    checkPdfHandler (some f) rulesField pdf llm
      = ⟨Response.error 400 "Only PDF files are supported.", false, 0⟩ := by
  simp only [checkPdfHandler, h]
  rw [if_pos hm]

theorem checkPdfHandler_noRules (f : UploadedFile) (rulesField : Option String)
    (pdf : PdfOutcome) (llm : Nat → LLMQuery)
    (h : jsonParse (rawRules rulesField) = some (Json.arr []))
    (hm : f.mimetype = "application/pdf") :
    checkPdfHandler (some f) rulesField pdf llm
      = ⟨Response.error 400 "At least one rule is required", false, 0⟩ := by
  simp [checkPdfHandler, h, hm]

theorem checkPdfHandler_parseError (f : UploadedFile) (rulesField : Option String)
    (rs : List Json) (llm : Nat → LLMQuery)
    (hmime : f.mimetype = "application/pdf")
    (hrules : jsonParse (rawRules rulesField) = some (Json.arr rs))
    (hne : rs ≠ []) :
    checkPdfHandler (some f) rulesField PdfOutcome.parseError llm
      = ⟨Response.error 500 "Failed to read PDF content.", true, 0⟩ := by
  simp [checkPdfHandler, hrules, hmime, hne]

theorem checkPdfHandler_shortText (f : UploadedFile) (rulesField : Option String)
    (rs : List Json) (textOpt : Option String) (llm : Nat → LLMQuery)
    (hmime : f.mimetype = "application/pdf")
    (hrules : jsonParse (rawRules rulesField) = some (Json.arr rs))
    (hne : rs ≠ [])
    (hlen : (textOpt.getD "" : String).length < 50) :
    checkPdfHandler (some f) rulesField (PdfOutcome.parsed textOpt) llm
      = ⟨Response.error 400
          "Extracted PDF text is too short or empty. Please check the PDF content.",
          true, 0⟩ := by
  simp [checkPdfHandler, hrules, hmime, hne, hlen]

theorem checkPdfHandler_valid (f : UploadedFile) (rulesField : Option String)
    (rs : List Json) (textOpt : Option String) (llm : Nat → LLMQuery)
    (hmime : f.mimetype = "application/pdf")
    (hrules : jsonParse (rawRules rulesField) = some (Json.arr rs))
    (hne : rs ≠ [])
    (hlen : ¬ (textOpt.getD "" : String).length < 50) :
    checkPdfHandler (some f) rulesField (PdfOutcome.parsed textOpt) llm
      = match filterRules rs with
        | JsOutcome.thrown => ⟨Response.error 500 "Internal server error", true, 0⟩
        | JsOutcome.ok kept =>
          ⟨Response.results (runChecks llm (textOpt.getD "") 0 kept), true, kept.length⟩ := by
  simp [checkPdfHandler, hrules, hmime, hne, hlen]

/-- A document text of 55 characters, above the 50-character gate. -/
def fiftyPlusText : String :=
  "This sample document text is definitely long enough 55"

/-- C1: for a valid request — file present with the PDF media type,
rules parsing to a non-empty array of strings, extraction succeeding
with text of length at least 50 — the response is a results list with
exactly one verdict per rule that is non-empty after trimming, in the
original submission order, and the i-th verdict's rule field equals
the trimmed i-th surviving rule string. -/
theorem c1_results_one_per_rule (f : UploadedFile) (rulesField : Option String)
    (rs : List Json) (textOpt : Option String) (llm : Nat → LLMQuery)
    (hmime : f.mimetype = "application/pdf")
    (hrules : jsonParse (rawRules rulesField) = some (Json.arr rs))
    (hstr : ∀ j ∈ rs, ∃ s, j = Json.str s)
    (hne : rs ≠ [])
    (hlen : ¬ (textOpt.getD "" : String).length < 50) :
    (checkPdfHandler (some f) rulesField (PdfOutcome.parsed textOpt) llm).response
      = Response.results (runChecks llm (textOpt.getD "") 0 (keptRules rs))
    ∧ (runChecks llm (textOpt.getD "") 0 (keptRules rs)).length = (keptRules rs).length
    ∧ (runChecks llm (textOpt.getD "") 0 (keptRules rs)).map Verdict.rule
        = (keptRules rs).map jsTrim := by
  refine ⟨?_, runChecks_length llm _ 0 _, runChecks_map_rule llm _ 0 _⟩
  rw [checkPdfHandler_valid f rulesField rs textOpt llm hmime hrules hne hlen,
    filterRules_eq_keptRules rs hstr]

/-- C1 witness: one surviving rule " a " yields exactly one verdict
whose rule field is the trimmed string "a". -/
theorem c1_witness :
    (checkPdfHandler (some ⟨"application/pdf"⟩) (some "[\" a \"]")
        (PdfOutcome.parsed (some fiftyPlusText)) (fun _ _ _ => LLMOutcome.apiError)).response
      = Response.results (runChecks (fun _ _ _ => LLMOutcome.apiError) fiftyPlusText 0
          (keptRules [Json.str " a "]))
    ∧ (runChecks (fun _ _ _ => LLMOutcome.apiError) fiftyPlusText 0
        (keptRules [Json.str " a "])).length = (keptRules [Json.str " a "]).length
    ∧ (runChecks (fun _ _ _ => LLMOutcome.apiError) fiftyPlusText 0
        (keptRules [Json.str " a "])).map Verdict.rule
        = (keptRules [Json.str " a "]).map jsTrim :=
  c1_results_one_per_rule ⟨"application/pdf"⟩ (some "[\" a \"]") [Json.str " a "]
    (some fiftyPlusText) (fun _ _ _ => LLMOutcome.apiError) rfl rfl
    (by
      intro j hj
      rw [List.mem_singleton] at hj
      exact ⟨" a ", hj⟩)
    (by simp)
    (by decide)

/-- C2 as stated is false: a request whose rules field parses to the
non-empty all-whitespace list [" ", ""] (with a valid PDF upload whose
extracted text is long enough) is not rejected with a 400 NoRules
error: extraction is performed and the response is a 200 with an empty
results list. -/
theorem c2_counterexample :
    (checkPdfHandler (some ⟨"application/pdf"⟩) (some "[\" \", \"\"]")
        (PdfOutcome.parsed (some fiftyPlusText)) (fun _ _ _ => LLMOutcome.apiError)).response
      = Response.results []
    ∧ (checkPdfHandler (some ⟨"application/pdf"⟩) (some "[\" \", \"\"]")
        (PdfOutcome.parsed (some fiftyPlusText))
        (fun _ _ _ => LLMOutcome.apiError)).extractionPerformed = true :=
  ⟨rfl, rfl⟩

/-- C2 amended: only a rules field parsing to the empty list is
rejected with the 400 NoRules error before any extraction or LLM
evaluation; a non-empty list whose entries are all empty or
whitespace-only passes validation, extraction is performed, and (when
it succeeds with sufficient text) the response is a 200 with an empty
results list and no LLM evaluation. -/
theorem c2_amended_empty_vs_whitespace :
    (∀ (f : UploadedFile) (rulesField : Option String) (pdf : PdfOutcome)
        (llm : Nat → LLMQuery),
      jsonParse (rawRules rulesField) = some (Json.arr []) →
      f.mimetype = "application/pdf" →
      checkPdfHandler (some f) rulesField pdf llm
        = ⟨Response.error 400 "At least one rule is required", false, 0⟩)
    ∧ (∀ (f : UploadedFile) (rulesField : Option String) (rs : List Json)
        (textOpt : Option String) (llm : Nat → LLMQuery),
      jsonParse (rawRules rulesField) = some (Json.arr rs) →
      f.mimetype = "application/pdf" →
      rs ≠ [] →
      (∀ j ∈ rs, ∃ s, j = Json.str s ∧ jsTrim s = "") →
      ¬ (textOpt.getD "" : String).length < 50 →
      checkPdfHandler (some f) rulesField (PdfOutcome.parsed textOpt) llm
        = ⟨Response.results [], true, 0⟩) := by
  constructor
  · intro f rulesField pdf llm h hm
    exact checkPdfHandler_noRules f rulesField pdf llm h hm
  · intro f rulesField rs textOpt llm h hm hne hws hlen
    have hstr : ∀ j ∈ rs, ∃ s, j = Json.str s := by
      intro j hj
      obtain ⟨s, hs, _⟩ := hws j hj
      exact ⟨s, hs⟩
    rw [checkPdfHandler_valid f rulesField rs textOpt llm hm h hne hlen,
      filterRules_eq_keptRules rs hstr, keptRules_nil_of_ws rs hws]
    rfl

/-- C2 witness: the all-whitespace singleton list [" "] passes
validation and produces an empty 200 results response after
extraction. -/
theorem c2_witness :
    checkPdfHandler (some ⟨"application/pdf"⟩) (some "[\" \"]")
        (PdfOutcome.parsed (some fiftyPlusText)) (fun _ _ _ => LLMOutcome.apiError)
      = ⟨Response.results [], true, 0⟩ :=
  c2_amended_empty_vs_whitespace.2 ⟨"application/pdf"⟩ (some "[\" \"]") [Json.str " "]
    (some fiftyPlusText) (fun _ _ _ => LLMOutcome.apiError) rfl rfl
    (by simp)
    (by
      intro j hj
      rw [List.mem_singleton] at hj
      exact ⟨" ", hj, rfl⟩)
    (by decide)

/-- C7: request validation happens in the fixed source order —
malformed rules JSON first (regardless of the file's presence or
type), then missing file, then unsupported media type, then empty
rules list — and the first violated check alone determines the 400
response. -/
theorem c7_validation_order (rulesField : Option String) (pdf : PdfOutcome)
    (llm : Nat → LLMQuery) :
    (∀ file, jsonParse (rawRules rulesField) = none →
      checkPdfHandler file rulesField pdf llm
        = ⟨Response.error 400 "Rules data is malformed.", false, 0⟩)
    ∧ (∀ rules, jsonParse (rawRules rulesField) = some rules →
      checkPdfHandler none rulesField pdf llm
        = ⟨Response.error 400 "PDF file is required", false, 0⟩)
    ∧ (∀ rules f, jsonParse (rawRules rulesField) = some rules →
      f.mimetype ≠ "application/pdf" →
      checkPdfHandler (some f) rulesField pdf llm
        = ⟨Response.error 400 "Only PDF files are supported.", false, 0⟩)
    ∧ (∀ f : UploadedFile, jsonParse (rawRules rulesField) = some (Json.arr []) →
      f.mimetype = "application/pdf" →
      checkPdfHandler (some f) rulesField pdf llm
        = ⟨Response.error 400 "At least one rule is required", false, 0⟩) :=
  ⟨fun file h => checkPdfHandler_malformed file rulesField pdf llm h,
   fun rules h => checkPdfHandler_noFile rulesField pdf llm rules h,
   fun rules f h hm => checkPdfHandler_badType f rulesField pdf llm rules h hm,
   fun f h hm => checkPdfHandler_noRules f rulesField pdf llm h hm⟩

/-- C7 witness: malformed rules JSON is rejected as MalformedRules
even when the file is absent. -/
theorem c7_witness :
    checkPdfHandler none (some "oops") PdfOutcome.noParser (fun _ _ _ => LLMOutcome.apiError)
      = ⟨Response.error 400 "Rules data is malformed.", false, 0⟩ :=
  (c7_validation_order (some "oops") PdfOutcome.noParser
    (fun _ _ _ => LLMOutcome.apiError)).1 none rfl

/-- C8: with a valid upload and non-empty rules array, a PDF parse
exception yields the 500 extraction-failure response; a successful
parse whose text is shorter than 50 characters yields the 400
insufficient-content response; text of length at least 50 proceeds to
rule evaluation, producing one LLM call per surviving rule. -/
theorem c8_extraction_outcomes (f : UploadedFile) (rulesField : Option String)
    (rs : List Json) (llm : Nat → LLMQuery)
    (hmime : f.mimetype = "application/pdf")
    (hrules : jsonParse (rawRules rulesField) = some (Json.arr rs))
    (hne : rs ≠ []) :
    checkPdfHandler (some f) rulesField PdfOutcome.parseError llm
      = ⟨Response.error 500 "Failed to read PDF content.", true, 0⟩
    ∧ (∀ textOpt, (textOpt.getD "" : String).length < 50 →
        checkPdfHandler (some f) rulesField (PdfOutcome.parsed textOpt) llm
          = ⟨Response.error 400
              "Extracted PDF text is too short or empty. Please check the PDF content.",
              true, 0⟩)
    ∧ (∀ textOpt, ¬ (textOpt.getD "" : String).length < 50 →
        (∀ j ∈ rs, ∃ s, j = Json.str s) →
        (checkPdfHandler (some f) rulesField (PdfOutcome.parsed textOpt) llm).response
          = Response.results (runChecks llm (textOpt.getD "") 0 (keptRules rs))
        ∧ (checkPdfHandler (some f) rulesField (PdfOutcome.parsed textOpt) llm).llmCalls
          = (keptRules rs).length) := by
  refine ⟨checkPdfHandler_parseError f rulesField rs llm hmime hrules hne, ?_, ?_⟩
  · intro textOpt hlen
    exact checkPdfHandler_shortText f rulesField rs textOpt llm hmime hrules hne hlen
  · intro textOpt hlen hstr
    rw [checkPdfHandler_valid f rulesField rs textOpt llm hmime hrules hne hlen,
      filterRules_eq_keptRules rs hstr]
    exact ⟨rfl, rfl⟩

/-- C8 witness: a throwing PDF parse yields the 500 response. -/
theorem c8_witness :
    checkPdfHandler (some ⟨"application/pdf"⟩) (some "[\"a\"]") PdfOutcome.parseError
        (fun _ _ _ => LLMOutcome.apiError)
      = ⟨Response.error 500 "Failed to read PDF content.", true, 0⟩ :=
  (c8_extraction_outcomes ⟨"application/pdf"⟩ (some "[\"a\"]") [Json.str "a"]
    (fun _ _ _ => LLMOutcome.apiError) rfl rfl (by simp)).1

/-- C10: a multipart body with no rules field at all defaults to the
literal "[]", which parses successfully to the empty list, so the
response is never the MalformedRules error, and with a PDF-typed file
present it is the 400 NoRules error. -/
theorem c10_missing_rules_field (file : Option UploadedFile) (pdf : PdfOutcome)
    (llm : Nat → LLMQuery) :
    rawRules none = "[]"
    ∧ jsonParse "[]" = some (Json.arr [])
    ∧ (checkPdfHandler file none pdf llm).response
        ≠ Response.error 400 "Rules data is malformed."
    ∧ (∀ f : UploadedFile, f.mimetype = "application/pdf" →
        checkPdfHandler (some f) none pdf llm
          = ⟨Response.error 400 "At least one rule is required", false, 0⟩) := by
  refine ⟨rfl, rfl, ?_, ?_⟩
  · cases file with
    | none =>
      rw [checkPdfHandler_noFile none pdf llm (Json.arr []) rfl]
      intro h
      have h' : Response.error 400 "PDF file is required"
          = Response.error 400 "Rules data is malformed." := h
      injection h' with h1 h2
      exact absurd h2 (by decide)
    | some f =>
      by_cases hm : f.mimetype = "application/pdf"
      · rw [checkPdfHandler_noRules f none pdf llm rfl hm]
        intro h
        have h' : Response.error 400 "At least one rule is required"
            = Response.error 400 "Rules data is malformed." := h
        injection h' with h1 h2
        exact absurd h2 (by decide)
      · rw [checkPdfHandler_badType f none pdf llm (Json.arr []) rfl hm]
        intro h
        have h' : Response.error 400 "Only PDF files are supported."
            = Response.error 400 "Rules data is malformed." := h
        injection h' with h1 h2
        exact absurd h2 (by decide)
  · intro f hm
    exact checkPdfHandler_noRules f none pdf llm rfl hm

/-- C10 witness: no rules field with a PDF-typed file yields the
NoRules error. -/
theorem c10_witness :
    checkPdfHandler (some ⟨"application/pdf"⟩) none PdfOutcome.noParser
        (fun _ _ _ => LLMOutcome.apiError)
      = ⟨Response.error 400 "At least one rule is required", false, 0⟩ :=
  (c10_missing_rules_field (some ⟨"application/pdf"⟩) PdfOutcome.noParser
    (fun _ _ _ => LLMOutcome.apiError)).2.2.2 ⟨"application/pdf"⟩ rfl

end PdfChecker
